import Mathlib

/-!
Verification of the incremental terminal renderer (`src/log-update.ts`) and the
scroll/positioning helpers of the `Box` component (`src/components/Box.tsx`).

The renderer closures `createStandard` and `createIncremental` are embedded as
explicit state machines: the closure variables become a state record, each
operation (`render`, `clear`, `done`, `sync`) becomes a pure function returning
the new state together with the list of effects it performed.  Effects are the
calls to `cliCursor.hide()` / `cliCursor.show()` and the `stream.write(...)`
calls; each `stream.write` carries the concatenated chunks (ANSI escapes and
literal text) it was given, kept symbolic so the emitted operation sequence can
be inspected.

JavaScript strings are embedded as `List Char` (written `Str`), so that all
definitions evaluate by kernel reduction; `jsSplitNewline` is the embedding of
the builtin `String.prototype.split('\n')` used by the source.
-/

/-- A JavaScript string, embedded as its list of characters. -/
abbrev Str := List Char

/-- Embedding of the JS builtin `s.split('\n')`: `cur` accumulates the
characters of the current segment in reverse.  `''.split('\n')` is `['']`,
and a trailing `'\n'` yields a trailing empty segment, as in JS. -/
def jsSplitNewlineAux : Str → List Char → List Str
  | [], cur => [cur.reverse]
  | c :: rest, cur =>
    if c = '\n' then cur.reverse :: jsSplitNewlineAux rest []
    else jsSplitNewlineAux rest (c :: cur)

/-- Embedding of `str.split('\n')`. -/
def jsSplitNewline (s : Str) : List Str := jsSplitNewlineAux s []

/-- A piece of a string passed to `stream.write`.  Members mirror the
`ansi-escapes` primitives used by `log-update.ts` plus literal text; the
literal `'\n'` pushed by the incremental diff loop is kept as its own
constructor so it can be distinguished from ordinary text chunks. -/
inductive Chunk where
  | eraseLines (n : Nat)
  | cursorUp (n : Nat)
  | eraseLine
  | cursorNextLine
  | newline
  | text (s : Str)
deriving DecidableEq, Repr

/-- One observable effect of a renderer operation: a cursor-visibility call or
a single `stream.write` of the concatenation of `chunks`. -/
inductive Op where
  | hideCursor
  | showCursor
  | write (chunks : List Chunk)
deriving DecidableEq, Repr

/-- Whether an effect is a write to the output stream (as opposed to a
cursor-visibility call). -/
def Op.isWrite : Op → Bool
  | .write _ => true
  | _ => false

/-- Closure state of `createStandard`: `previousLineCount`, `previousOutput`,
`hasHiddenCursor`. -/
structure StdState where
  previousLineCount : Nat
  previousOutput : Str
  hasHiddenCursor : Bool
deriving DecidableEq, Repr

/-- Initial closure state of `createStandard`. -/
def stdInit : StdState := ⟨0, [], false⟩

/-- `createStandard`'s `render(str)`.  `showCursor` is the construction
option captured by the closure. -/
def stdRender (showCursor : Bool) (s : StdState) (str : Str) :
    StdState × List Op :=
  let hide := !showCursor && !s.hasHiddenCursor
  let s₁ := if hide then {s with hasHiddenCursor := true} else s
  let ops₁ : List Op := if hide then [Op.hideCursor] else []
  let output := str
  if output = s₁.previousOutput then (s₁, ops₁)
  else
    ({s₁ with
        previousOutput := output
        previousLineCount := (jsSplitNewline output).length},
     ops₁ ++ [Op.write [Chunk.eraseLines s₁.previousLineCount, Chunk.text output]])

/-- `createStandard`'s `render.clear()`. -/
def stdClear (s : StdState) : StdState × List Op :=
  ({s with previousOutput := [], previousLineCount := 0},
   [Op.write [Chunk.eraseLines s.previousLineCount]])

/-- `createStandard`'s `render.done()`. -/
def stdDone (showCursor : Bool) (s : StdState) : StdState × List Op :=
  let ops₁ : List Op :=
    if s.previousOutput.length > 0 then [Op.write [Chunk.text ['\n']]] else []
  let s₁ : StdState := {s with previousOutput := [], previousLineCount := 0}
  if !showCursor then
    ({s₁ with hasHiddenCursor := false}, ops₁ ++ [Op.showCursor])
  else (s₁, ops₁)

/-- `createStandard`'s `render.sync(str)`; writes nothing. -/
def stdSync (s : StdState) (str : Str) : StdState :=
  {s with previousOutput := str, previousLineCount := (jsSplitNewline str).length}

/-- Closure state of `createIncremental`: `previousLines`, `previousOutput`,
`hasHiddenCursor`. -/
structure IncState where
  previousLines : List Str
  previousOutput : Str
  hasHiddenCursor : Bool
deriving DecidableEq, Repr

/-- Initial closure state of `createIncremental`. -/
def incInit : IncState := ⟨[], [], false⟩

/-- Chunks pushed by iteration `i` of the diff loop in `createIncremental`'s
`render`: erase-and-rewrite when the line changed, then a cursor movement
(a real newline after a rewritten line, cursor-next-line otherwise) except
after the last line. -/
def incLineChunks (previousLines nextLines : List Str)
    (visibleCount i : Nat) : List Chunk :=
  let contentChanged := nextLines[i]? ≠ previousLines[i]?
  (if contentChanged then
    [Chunk.eraseLine, Chunk.text ((nextLines[i]?).getD [])]
   else [])
  ++ (if i < visibleCount - 1 then
        [if contentChanged then Chunk.newline else Chunk.cursorNextLine]
      else [])

/-- The whole diff loop of `createIncremental`'s `render`: the concatenation
of the per-line chunks for `i = 0, …, visibleCount - 1`. -/
def incBody (previousLines nextLines : List Str) (visibleCount : Nat) :
    List Chunk :=
  (List.range visibleCount).flatMap (incLineChunks previousLines nextLines visibleCount)

/-- The chunks pushed before the diff loop: erase surplus trailing lines and
move to the top when the line count shrank, otherwise move the cursor up to
the top of the previous block. -/
def incHeader (previousCount nextCount : Nat) : List Chunk :=
  if nextCount < previousCount then
    [Chunk.eraseLines (previousCount - nextCount), Chunk.cursorUp nextCount]
  else
    [Chunk.cursorUp (previousCount - 1)]

/-- `createIncremental`'s `render(str)`. -/
def incRender (showCursor : Bool) (s : IncState) (str : Str) :
    IncState × List Op :=
  let hide := !showCursor && !s.hasHiddenCursor
  let s₁ := if hide then {s with hasHiddenCursor := true} else s
  let ops₁ : List Op := if hide then [Op.hideCursor] else []
  let output := str
  if output = s₁.previousOutput then (s₁, ops₁)
  else
    let previousCount := s₁.previousLines.length
    let nextLines := jsSplitNewline output
    let nextCount := nextLines.length
    let visibleCount := nextCount
    if output = [] ∨ s₁.previousOutput.length = 0 then
      ({s₁ with previousOutput := output, previousLines := nextLines},
       ops₁ ++ [Op.write [Chunk.eraseLines previousCount, Chunk.text output]])
    else
      ({s₁ with previousOutput := output, previousLines := nextLines},
       ops₁ ++ [Op.write (incHeader previousCount nextCount
                  ++ incBody s₁.previousLines nextLines visibleCount)])

/-- `createIncremental`'s `render.clear()`. -/
def incClear (s : IncState) : IncState × List Op :=
  ({s with previousOutput := [], previousLines := []},
   [Op.write [Chunk.eraseLines s.previousLines.length]])

/-- `createIncremental`'s `render.done()`. -/
def incDone (showCursor : Bool) (s : IncState) : IncState × List Op :=
  let ops₁ : List Op :=
    if s.previousOutput.length > 0 then [Op.write [Chunk.text ['\n']]] else []
  let s₁ : IncState := {s with previousOutput := [], previousLines := []}
  if !showCursor then
    ({s₁ with hasHiddenCursor := false}, ops₁ ++ [Op.showCursor])
  else (s₁, ops₁)

/-- `createIncremental`'s `render.sync(str)`; writes nothing. -/
def incSync (s : IncState) (str : Str) : IncState :=
  {s with previousOutput := str, previousLines := jsSplitNewline str}

example : jsSplitNewline "a\nb".toList = ["a".toList, "b".toList] := by decide
example : jsSplitNewline [] = [[]] := by decide
example :
    (stdRender false stdInit "hi".toList).2 =
      [Op.hideCursor, Op.write [Chunk.eraseLines 0, Chunk.text "hi".toList]] := by
  decide
example :
    (incRender true ⟨["a".toList, "b".toList], "a\nb".toList, false⟩ "a\nc".toList).2 =
      [Op.write [Chunk.cursorUp 1, Chunk.cursorNextLine, Chunk.eraseLine,
        Chunk.text "c".toList]] := by decide

/-!
Embedding of the `Box` component's imperative handle (`src/components/Box.tsx`).

JavaScript numbers reaching `scrollTo` are embedded as `JsNum`: an integer or
`NaN`.  `Math.min` / `Math.max` propagate `NaN` exactly as in JS.  Layout
geometry (from Yoga) is embedded as integer fields of `Geom`.
-/

/-- A JS number as it can reach `scrollTo`: an ordinary (integer) value or
`NaN`. -/
inductive JsNum where
  | nan
  | num (n : Int)
deriving DecidableEq, Repr

/-- `Math.max` on two ordinary (integer) JS numbers. -/
def mathMax (a b : Int) : Int := if a < b then b else a

/-- `Math.min` on two ordinary (integer) JS numbers. -/
def mathMin (a b : Int) : Int := if b < a then b else a

/-- `Math.min` on two JS numbers: `NaN` if either argument is `NaN`. -/
def jsMin : JsNum → JsNum → JsNum
  | .nan, _ => .nan
  | _, .nan => .nan
  | .num a, .num b => .num (mathMin a b)

/-- `Math.max` on two JS numbers: `NaN` if either argument is `NaN`. -/
def jsMax : JsNum → JsNum → JsNum
  | .nan, _ => .nan
  | _, .nan => .nan
  | .num a, .num b => .num (mathMax a b)

/-- The persistent scroll state `scrollStateRef.current`. -/
structure ScrollState where
  x : JsNum
  y : JsNum
deriving DecidableEq, Repr

/-- The `scrollTo({x, y})` method of the Box handle.  `maxX`/`maxY` are the
components of `getMaxScroll()` (ordinary numbers, see `getMaxScroll` below);
`x`/`y` are the destructured option fields, `none` when absent
(`undefined`). -/
def scrollTo (maxX maxY : Int) (st : ScrollState) (x y : Option JsNum) :
    ScrollState :=
  let st₁ :=
    match x with
    | none => st
    | some v => {st with x := jsMax (.num 0) (jsMin v (.num maxX))}
  match y with
  | none => st₁
  | some v => {st₁ with y := jsMax (.num 0) (jsMin v (.num maxY))}

/-- Computed Yoga geometry of a DOM node: `getComputedLeft/Top/Width/Height`
and `getComputedBorder` for the four edges. -/
structure Geom where
  left : Int
  top : Int
  width : Int
  height : Int
  borderLeft : Int
  borderRight : Int
  borderTop : Int
  borderBottom : Int
deriving DecidableEq, Repr

/-- A DOM element as traversed by `getContentDimensions`: its optional
`yogaNode` and its ordered `childNodes`. -/
inductive DomNode where
  | mk : Option Geom → List DomNode → DomNode
deriving Repr

/-- The `yogaNode` field. -/
def DomNode.yogaNode : DomNode → Option Geom
  | .mk g _ => g

/-- The `childNodes` field. -/
def DomNode.childNodes : DomNode → List DomNode
  | .mk _ cs => cs

/-- The body of `measureNode` in `getContentDimensions`: iterates over
`children`, and for each child with a `yogaNode` extends the running maxima
`acc = (maxWidth, maxHeight)` with the child's right/bottom edge at offset
`(ox, oy)` and recurses into the child at its own origin.  Children without a
`yogaNode` are skipped (their subtree is not visited). -/
def measureChildren : List DomNode → Int → Int → Int × Int → Int × Int
  | [], _, _, acc => acc
  | DomNode.mk none _ :: rest, ox, oy, acc => measureChildren rest ox oy acc
  | DomNode.mk (some g) cs :: rest, ox, oy, acc =>
    let childX := ox + g.left
    let childY := oy + g.top
    let acc₁ := (mathMax acc.1 (childX + g.width), mathMax acc.2 (childY + g.height))
    measureChildren rest ox oy (measureChildren cs childX childY acc₁)

/-- `getContentDimensions()`: `{width: 0, height: 0}` when the container has
no `yogaNode`, otherwise `measureNode(element, 0, 0)` starting from maxima
`(0, 0)`. -/
def getContentDimensions (element : DomNode) : Int × Int :=
  match element.yogaNode with
  | none => (0, 0)
  | some _ => measureChildren element.childNodes 0 0 (0, 0)

/-- `getMaxScroll()`: content extent minus the container size net of borders,
clamped to be non-negative; `{x: 0, y: 0}` when the container has no
`yogaNode`. -/
def getMaxScroll (element : DomNode) : Int × Int :=
  match element.yogaNode with
  | none => (0, 0)
  | some g =>
    let containerWidth := g.width - g.borderLeft - g.borderRight
    let containerHeight := g.height - g.borderTop - g.borderBottom
    let content := getContentDimensions element
    (mathMax 0 (content.1 - containerWidth), mathMax 0 (content.2 - containerHeight))

/-- Specification-side view of the traversal: the list of `(right, bottom)`
edges of every descendant visited by `measureNode`, relative to the
container's content origin.  A child without geometry contributes nothing and
hides its subtree, matching the source's guard. -/
def descendantEdges : List DomNode → List (Int × Int)
  | [] => []
  | DomNode.mk none _ :: rest => descendantEdges rest
  | DomNode.mk (some g) cs :: rest =>
    (g.left + g.width, g.top + g.height) ::
      ((descendantEdges cs).map (fun p => (g.left + p.1, g.top + p.2))
        ++ descendantEdges rest)

/-- Frame-absolute bounds returned by `getBounds`. -/
structure Bounds where
  x : Int
  y : Int
  width : Int
  height : Int
deriving DecidableEq, Repr

/-- A DOM element as seen by `getBounds`: its own optional `yogaNode` and the
`yogaNode`s of its ancestor chain (`parentNode` first, ending at the root). -/
structure LocatedNode where
  yogaNode : Option Geom
  ancestorYogas : List (Option Geom)
deriving DecidableEq, Repr

/-- The `while` loop of `getBounds`: walks the ancestor chain adding each
ancestor's computed left/top, stopping at the first ancestor that has no
`yogaNode` (the loop condition fails there, ending the walk). -/
def getBoundsWalk : List (Option Geom) → Int × Int → Int × Int
  | some g :: rest, (x, y) => getBoundsWalk rest (x + g.left, y + g.top)
  | _, xy => xy

/-- `getBounds()` of the Box handle. -/
def getBounds (e : LocatedNode) : Bounds :=
  match e.yogaNode with
  | none => ⟨0, 0, 0, 0⟩
  | some g =>
    let xy := getBoundsWalk e.ancestorYogas (g.left, g.top)
    ⟨xy.1, xy.2, g.width, g.height⟩

/-- Modelled from the spec claim's words, for comparison with `getBounds`:
sums the node's own coordinate with EVERY ancestor's coordinate up to the
root, an ancestor without geometry contributing zero. -/
def claimBounds (e : LocatedNode) : Bounds :=
  match e.yogaNode with
  | none => ⟨0, 0, 0, 0⟩
  | some g =>
    ⟨g.left + (e.ancestorYogas.map (fun a => (a.map Geom.left).getD 0)).sum,
     g.top + (e.ancestorYogas.map (fun a => (a.map Geom.top).getD 0)).sum,
     g.width, g.height⟩

/-- The overflow variants of the style schema. -/
inductive Overflow where
  | visible
  | hidden
  | scroll
deriving DecidableEq, Repr

/-- The three overflow-related props of `Box` as passed by the caller
(`none` = unset). -/
structure OverflowStyle where
  overflow : Option Overflow
  overflowX : Option Overflow
  overflowY : Option Overflow
deriving DecidableEq, Repr

/-- The `overflowX` value `Box` puts on the underlying element:
`style.overflowX ?? style.overflow ?? 'visible'`. -/
def resolvedOverflowX (s : OverflowStyle) : Overflow :=
  s.overflowX.getD (s.overflow.getD Overflow.visible)

/-- The `overflowY` value `Box` puts on the underlying element:
`style.overflowY ?? style.overflow ?? 'visible'`. -/
def resolvedOverflowY (s : OverflowStyle) : Overflow :=
  s.overflowY.getD (s.overflow.getD Overflow.visible)

/-- `isScrollContainer`: any of the three props literally set to
`'scroll'`. -/
def isScrollContainer (s : OverflowStyle) : Bool :=
  s.overflow = some Overflow.scroll || s.overflowX = some Overflow.scroll ||
    s.overflowY = some Overflow.scroll

example :
    scrollTo 10 10 ⟨.num 0, .num 0⟩ (some (.num 25)) none =
      ⟨.num 10, .num 0⟩ := by decide
example :
    scrollTo 10 10 ⟨.num 3, .num 4⟩ (some .nan) none = ⟨.nan, .num 4⟩ := by
  decide
example :
    getMaxScroll (.mk (some ⟨0, 0, 5, 3, 0, 0, 0, 0⟩)
      [.mk (some ⟨0, 0, 9, 2, 0, 0, 0, 0⟩) []]) = (4, 0) := by
  simp [getMaxScroll, getContentDimensions, measureChildren, DomNode.yogaNode,
    DomNode.childNodes, mathMax]

/-! ## Claims about `Box` -/

lemma getBoundsWalk_eq_takeWhile_sum (l : List (Option Geom)) (x y : Int) :
    getBoundsWalk l (x, y) =
      (x + ((l.takeWhile Option.isSome).map (fun a => (a.map Geom.left).getD 0)).sum,
       y + ((l.takeWhile Option.isSome).map (fun a => (a.map Geom.top).getD 0)).sum) := by
  induction l generalizing x y with
  | nil => simp [getBoundsWalk]
  | cons a rest ih =>
    cases a with
    | none => simp [getBoundsWalk, List.takeWhile]
    | some g =>
      simp only [getBoundsWalk, ih, List.takeWhile, Option.isSome, List.map_cons,
        List.sum_cons, Option.map_some', Option.getD_some]
      simp [add_assoc]

/-- C10: `Box` resolves each overflow axis as the explicit per-axis prop if
set, else the shorthand `overflow` prop if set, else `visible`; in particular
`overflow = 'scroll'` alone makes both resolved axes `scroll`, and a per-axis
prop set alongside the shorthand wins on its axis. -/
theorem overflow_axis_resolution :
    (∀ s v, s.overflowX = some v → resolvedOverflowX s = v) ∧
    (∀ s v, s.overflowY = some v → resolvedOverflowY s = v) ∧
    (∀ s v, s.overflowX = none → s.overflow = some v → resolvedOverflowX s = v) ∧
    (∀ s v, s.overflowY = none → s.overflow = some v → resolvedOverflowY s = v) ∧
    (∀ s, s.overflowX = none → s.overflow = none →
      resolvedOverflowX s = Overflow.visible) ∧
    (∀ s, s.overflowY = none → s.overflow = none →
      resolvedOverflowY s = Overflow.visible) ∧
    resolvedOverflowX ⟨some Overflow.scroll, none, none⟩ = Overflow.scroll ∧
    resolvedOverflowY ⟨some Overflow.scroll, none, none⟩ = Overflow.scroll := by
  refine ⟨?_, ?_, ?_, ?_, ?_, ?_, by decide, by decide⟩ <;>
    intro s
  case _ => intro v h; simp [resolvedOverflowX, h]
  case _ => intro v h; simp [resolvedOverflowY, h]
  case _ => intro v h₁ h₂; simp [resolvedOverflowX, h₁, h₂]
  case _ => intro v h₁ h₂; simp [resolvedOverflowY, h₁, h₂]
  case _ => intro h₁ h₂; simp [resolvedOverflowX, h₁, h₂]
  case _ => intro h₁ h₂; simp [resolvedOverflowY, h₁, h₂]

theorem overflow_axis_resolution_witness :
    resolvedOverflowX ⟨some Overflow.scroll, some Overflow.hidden, none⟩ =
      Overflow.hidden :=
  overflow_axis_resolution.1 ⟨some Overflow.scroll, some Overflow.hidden, none⟩
    Overflow.hidden rfl

/-- C2 counterexample: passing the non-numeric value `NaN` for `x` does NOT
leave that axis unchanged — `x !== undefined` holds for `NaN`, so the clamp
runs and stores `NaN` (here the stored `x` changes from `3` to `NaN`). -/
theorem scrollTo_nan_changes_axis :
    (scrollTo 10 10 ⟨JsNum.num 3, JsNum.num 4⟩ (some JsNum.nan) none).x =
        JsNum.nan ∧
      (⟨JsNum.num 3, JsNum.num 4⟩ : ScrollState).x ≠ JsNum.nan := by decide

/-- C2 (amended): `scrollTo` clamps each provided ordinary-number axis into
`[0, maxScroll.axis]` (above the maximum stores the maximum, below `0` stores
`0`) and updates only the provided axes; an omitted (`undefined`) axis is left
unchanged, but a provided `NaN` passes the `undefined` check and is stored as
`NaN`. -/
theorem scrollTo_clamps_provided_axes (maxX maxY : Int) (st : ScrollState) :
    (∀ oy, (scrollTo maxX maxY st none oy).x = st.x) ∧
    (∀ ox, (scrollTo maxX maxY st ox none).y = st.y) ∧
    (0 ≤ maxX → ∀ v oy, ∃ w,
      (scrollTo maxX maxY st (some (JsNum.num v)) oy).x = JsNum.num w ∧
      0 ≤ w ∧ w ≤ maxX ∧ (maxX < v → w = maxX) ∧ (v < 0 → w = 0) ∧
      (0 ≤ v → v ≤ maxX → w = v)) ∧
    (0 ≤ maxY → ∀ v ox, ∃ w,
      (scrollTo maxX maxY st ox (some (JsNum.num v))).y = JsNum.num w ∧
      0 ≤ w ∧ w ≤ maxY ∧ (maxY < v → w = maxY) ∧ (v < 0 → w = 0) ∧
      (0 ≤ v → v ≤ maxY → w = v)) ∧
    (∀ oy, (scrollTo maxX maxY st (some JsNum.nan) oy).x = JsNum.nan) := by
  refine ⟨?_, ?_, ?_, ?_, ?_⟩
  · intro oy; cases oy <;> simp [scrollTo]
  · intro ox; cases ox <;> simp [scrollTo]
  · intro hmax v oy
    refine ⟨mathMax 0 (mathMin v maxX), ?_, ?_⟩
    · cases oy <;> simp [scrollTo, jsMax, jsMin]
    · simp only [mathMax, mathMin]
      split <;> split <;> omega
  · intro hmax v ox
    refine ⟨mathMax 0 (mathMin v maxY), ?_, ?_⟩
    · cases ox with
      | none => simp [scrollTo, jsMax, jsMin]
      | some o => cases o <;> simp [scrollTo, jsMax, jsMin]
    · simp only [mathMax, mathMin]
      split <;> split <;> omega
  · intro oy; cases oy <;> simp [scrollTo, jsMax, jsMin]

theorem scrollTo_clamps_provided_axes_witness :
    ∃ w, (scrollTo 10 5 ⟨JsNum.num 1, JsNum.num 2⟩ (some (JsNum.num 25))
        none).x = JsNum.num w ∧
      0 ≤ w ∧ w ≤ 10 ∧ ((10 : Int) < 25 → w = 10) ∧ ((25 : Int) < 0 → w = 0) ∧
      ((0 : Int) ≤ 25 → (25 : Int) ≤ 10 → w = 25) :=
  (scrollTo_clamps_provided_axes 10 5 ⟨JsNum.num 1, JsNum.num 2⟩).2.2.1
    (by decide) 25 none

/-- The concrete node refuting C7: geometry `left = 1, top = 2`, parent
without geometry, grandparent with geometry `left = 5, top = 7`. -/
def c7node : LocatedNode :=
  ⟨some ⟨1, 2, 3, 4, 0, 0, 0, 0⟩, [none, some ⟨5, 7, 9, 9, 0, 0, 0, 0⟩]⟩

/-- C7 counterexample: the `while` loop of `getBounds` stops at the first
ancestor without geometry, so an ancestor with geometry above it is NOT
summed; the claim (every ancestor summed, geometry-less ones contributing
zero) demands `x = 1 + 0 + 5 = 6`, but the code returns `x = 1`. -/
theorem getBounds_stops_at_geometry_gap :
    getBounds c7node = ⟨1, 2, 3, 4⟩ ∧ claimBounds c7node = ⟨6, 9, 3, 4⟩ ∧
      getBounds c7node ≠ claimBounds c7node := by decide

/-- C7 (amended): for a node with computed geometry, `getBounds()` returns
the node's own `x`/`y` plus the sum of the `x`/`y` of the contiguous chain of
geometry-bearing ancestors starting at its parent: the upward walk stops at
the first ancestor without geometry, and every ancestor above that point is
ignored (even if it has geometry). -/
theorem getBounds_sums_contiguous_ancestors (e : LocatedNode) (g : Geom)
    (h : e.yogaNode = some g) :
    getBounds e =
      ⟨g.left + ((e.ancestorYogas.takeWhile Option.isSome).map
          (fun a => (a.map Geom.left).getD 0)).sum,
       g.top + ((e.ancestorYogas.takeWhile Option.isSome).map
          (fun a => (a.map Geom.top).getD 0)).sum,
       g.width, g.height⟩ := by
  simp [getBounds, h, getBoundsWalk_eq_takeWhile_sum]

theorem getBounds_sums_contiguous_ancestors_witness :
    getBounds ⟨some ⟨1, 2, 3, 4, 0, 0, 0, 0⟩,
        [some ⟨10, 20, 9, 9, 0, 0, 0, 0⟩, none,
         some ⟨100, 100, 9, 9, 0, 0, 0, 0⟩]⟩ = ⟨11, 22, 3, 4⟩ := by
  rw [getBounds_sums_contiguous_ancestors _ ⟨1, 2, 3, 4, 0, 0, 0, 0⟩ rfl]
  decide

/-! ## Claims about the renderer -/

lemma stdRender_fst_previousOutput (sc : Bool) (s : StdState) (str : Str) :
    (stdRender sc s str).1.previousOutput = str := by
  by_cases hh : (!sc && !s.hasHiddenCursor) = true <;>
    by_cases he : str = s.previousOutput <;>
      simp [stdRender, hh, he]

lemma incRender_fst_previousOutput (sc : Bool) (t : IncState) (str : Str) :
    (incRender sc t str).1.previousOutput = str := by
  by_cases hh : (!sc && !t.hasHiddenCursor) = true <;>
    by_cases he : str = t.previousOutput <;>
      by_cases hf : str = [] ∨ t.previousOutput = [] <;>
        simp [incRender, hh, he, hf]

lemma stdRender_writes_nil_of_eq (sc : Bool) (s : StdState) (str : Str)
    (h : str = s.previousOutput) :
    (stdRender sc s str).2.filter Op.isWrite = [] := by
  subst h
  by_cases hh : (!sc && !s.hasHiddenCursor) = true <;>
    simp [stdRender, hh, Op.isWrite]

lemma incRender_writes_nil_of_eq (sc : Bool) (t : IncState) (str : Str)
    (h : str = t.previousOutput) :
    (incRender sc t str).2.filter Op.isWrite = [] := by
  subst h
  by_cases hh : (!sc && !t.hasHiddenCursor) = true <;>
    simp [incRender, hh, Op.isWrite]

lemma stdRender_writes_of_ne (sc : Bool) (s : StdState) (str : Str)
    (h : ¬ str = s.previousOutput) :
    (stdRender sc s str).2.filter Op.isWrite =
      [Op.write [Chunk.eraseLines s.previousLineCount, Chunk.text str]] := by
  by_cases hh : (!sc && !s.hasHiddenCursor) = true <;>
    simp [stdRender, hh, h, Op.isWrite]

/-- C1: for both renderer variants, `render(next)` with `next` equal to the
tracked previous output performs no stream write and leaves the tracked
previous-output state (string and cached line count / line array) unchanged;
a render of different text performs exactly one stream write; and re-rendering
the same text right after any render performs no stream write (the second
call is a no-op). -/
theorem render_noop_on_identical (sc : Bool) (s : StdState) (t : IncState)
    (str : Str) :
    (str = s.previousOutput →
      (stdRender sc s str).2.filter Op.isWrite = [] ∧
      (stdRender sc s str).1.previousOutput = s.previousOutput ∧
      (stdRender sc s str).1.previousLineCount = s.previousLineCount) ∧
    (str = t.previousOutput →
      (incRender sc t str).2.filter Op.isWrite = [] ∧
      (incRender sc t str).1.previousOutput = t.previousOutput ∧
      (incRender sc t str).1.previousLines = t.previousLines) ∧
    (str ≠ s.previousOutput →
      ((stdRender sc s str).2.filter Op.isWrite).length = 1) ∧
    (str ≠ t.previousOutput →
      ((incRender sc t str).2.filter Op.isWrite).length = 1) ∧
    (stdRender sc (stdRender sc s str).1 str).2.filter Op.isWrite = [] ∧
    (incRender sc (incRender sc t str).1 str).2.filter Op.isWrite = [] := by
  refine ⟨?_, ?_, ?_, ?_, ?_, ?_⟩
  · intro h
    refine ⟨stdRender_writes_nil_of_eq sc s str h, ?_⟩
    subst h
    by_cases hh : (!sc && !s.hasHiddenCursor) = true <;>
      simp [stdRender, hh]
  · intro h
    refine ⟨incRender_writes_nil_of_eq sc t str h, ?_⟩
    subst h
    by_cases hh : (!sc && !t.hasHiddenCursor) = true <;>
      simp [incRender, hh]
  · intro h
    rw [stdRender_writes_of_ne sc s str h]
    rfl
  · intro h
    by_cases hh : (!sc && !t.hasHiddenCursor) = true <;>
      by_cases hf : str = [] ∨ t.previousOutput = [] <;>
        simp [incRender, hh, h, hf, Op.isWrite]
  · exact stdRender_writes_nil_of_eq sc _ str
      (stdRender_fst_previousOutput sc s str).symm
  · exact incRender_writes_nil_of_eq sc _ str
      (incRender_fst_previousOutput sc t str).symm

theorem render_noop_on_identical_witness :
    (stdRender false stdInit []).2.filter Op.isWrite = [] ∧
      (incRender false incInit []).2.filter Op.isWrite = [] ∧
      ((stdRender false stdInit "a".toList).2.filter Op.isWrite).length = 1 :=
  ⟨((render_noop_on_identical false stdInit incInit []).1 rfl).1,
   ((render_noop_on_identical false stdInit incInit []).2.1 rfl).1,
   (render_noop_on_identical false stdInit incInit "a".toList).2.2.1
     (by decide)⟩

/-- C9: with `showCursor = false`, a render from a state where the cursor is
not yet hidden emits the hide-cursor call and sets the hidden flag — even
when the argument equals the tracked previous output (the whole effect list
is then just the hide-cursor call, emitted before the no-op equality check);
once the flag is set no render emits hide-cursor again, and `done()` resets
the flag. -/
theorem render_hides_cursor_before_noop_check (s : StdState) (t : IncState)
    (str : Str) :
    (s.hasHiddenCursor = false →
      Op.hideCursor ∈ (stdRender false s str).2 ∧
      (stdRender false s str).1.hasHiddenCursor = true) ∧
    (str = s.previousOutput → s.hasHiddenCursor = false →
      (stdRender false s str).2 = [Op.hideCursor]) ∧
    (s.hasHiddenCursor = true →
      Op.hideCursor ∉ (stdRender false s str).2 ∧
      (stdRender false s str).1.hasHiddenCursor = true) ∧
    (stdDone false s).1.hasHiddenCursor = false ∧
    (t.hasHiddenCursor = false →
      Op.hideCursor ∈ (incRender false t str).2 ∧
      (incRender false t str).1.hasHiddenCursor = true) ∧
    (str = t.previousOutput → t.hasHiddenCursor = false →
      (incRender false t str).2 = [Op.hideCursor]) ∧
    (t.hasHiddenCursor = true →
      Op.hideCursor ∉ (incRender false t str).2 ∧
      (incRender false t str).1.hasHiddenCursor = true) ∧
    (incDone false t).1.hasHiddenCursor = false := by
  refine ⟨?_, ?_, ?_, ?_, ?_, ?_, ?_, ?_⟩
  · intro h
    by_cases he : str = s.previousOutput <;> simp [stdRender, h, he]
  · intro he h
    subst he
    simp [stdRender, h]
  · intro h
    by_cases he : str = s.previousOutput <;> simp [stdRender, h, he]
  · simp [stdDone]
  · intro h
    by_cases he : str = t.previousOutput <;>
      by_cases hf : str = [] ∨ t.previousOutput = [] <;>
        simp [incRender, h, he, hf]
  · intro he h
    subst he
    simp [incRender, h]
  · intro h
    by_cases he : str = t.previousOutput <;>
      by_cases hf : str = [] ∨ t.previousOutput = [] <;>
        simp [incRender, h, he, hf]
  · simp [incDone]

theorem render_hides_cursor_before_noop_check_witness :
    (stdRender false stdInit []).2 = [Op.hideCursor] ∧
      Op.hideCursor ∉ (stdRender false ⟨1, ['a'], true⟩ []).2 :=
  ⟨(render_hides_cursor_before_noop_check stdInit incInit []).2.1 rfl rfl,
   ((render_hides_cursor_before_noop_check ⟨1, ['a'], true⟩ incInit []).2.2.1
     rfl).1⟩

/-- C5 counterexample: with `showCursor = false` and a renderer that never
hid the cursor (fresh state, `hasHiddenCursor = false`), `done()` still emits
the show-cursor call — refuting the claimed "restores cursor visibility if
and only if the cursor had previously been hidden by this renderer". -/
theorem done_shows_cursor_though_never_hidden :
    stdInit.hasHiddenCursor = false ∧
      Op.showCursor ∈ (stdDone false stdInit).2 ∧
      incInit.hasHiddenCursor = false ∧
      Op.showCursor ∈ (incDone false incInit).2 := by decide

/-- C5 (amended): for both variants, `done()` writes exactly one trailing
newline to the stream if and only if non-empty content is tracked as
rendered, resets the state to "nothing rendered", and emits the show-cursor
call if and only if the renderer was constructed with `showCursor = false`
(regardless of whether a render actually hid the cursor); in that case the
hidden flag is cleared. -/
theorem done_newline_and_reset (sc : Bool) (s : StdState) (t : IncState) :
    ((stdDone sc s).2.filter Op.isWrite =
      if s.previousOutput = [] then [] else [Op.write [Chunk.text ['\n']]]) ∧
    (stdDone sc s).1.previousOutput = [] ∧
    (stdDone sc s).1.previousLineCount = 0 ∧
    (Op.showCursor ∈ (stdDone sc s).2 ↔ sc = false) ∧
    (sc = false → (stdDone sc s).1.hasHiddenCursor = false) ∧
    ((incDone sc t).2.filter Op.isWrite =
      if t.previousOutput = [] then [] else [Op.write [Chunk.text ['\n']]]) ∧
    (incDone sc t).1.previousOutput = [] ∧
    (incDone sc t).1.previousLines = [] ∧
    (Op.showCursor ∈ (incDone sc t).2 ↔ sc = false) ∧
    (sc = false → (incDone sc t).1.hasHiddenCursor = false) := by
  cases sc <;>
    by_cases hp : s.previousOutput = [] <;>
      by_cases hq : t.previousOutput = [] <;>
        simp [stdDone, incDone, hp, hq, Op.isWrite, List.length_pos]

theorem done_newline_and_reset_witness :
    (stdDone false ⟨1, ['x'], true⟩).1.hasHiddenCursor = false :=
  (done_newline_and_reset false ⟨1, ['x'], true⟩ incInit).2.2.2.2.1 rfl

/-- The simulation relation between a standard-mode state and an
incremental-mode state: same tracked output and cursor flag, and the cached
line count equals the cached line array's length. -/
def statesCorrespond (s : StdState) (t : IncState) : Prop :=
  s.previousOutput = t.previousOutput ∧
    s.previousLineCount = t.previousLines.length ∧
    s.hasHiddenCursor = t.hasHiddenCursor

/-- C4: in incremental mode, when the tracked previous output is empty or the
next output is empty (and the render is not a no-op), `render` emits exactly
the standard-mode effects for that transition — a single write of one erase
of the previous line count followed by the full next output, with no
line-by-line diff — and the two modes stay in correspondence. -/
theorem incremental_empty_falls_back_to_standard (sc : Bool) (s : StdState)
    (t : IncState) (str : Str) (hc : statesCorrespond s t)
    (hne : str ≠ t.previousOutput) (he : str = [] ∨ t.previousOutput = []) :
    (incRender sc t str).2 = (stdRender sc s str).2 ∧
    (incRender sc t str).2.filter Op.isWrite =
      [Op.write [Chunk.eraseLines t.previousLines.length, Chunk.text str]] ∧
    statesCorrespond (stdRender sc s str).1 (incRender sc t str).1 := by
  obtain ⟨h1, h2, h3⟩ := hc
  have hne' : ¬ str = s.previousOutput := by rw [h1]; exact hne
  by_cases hh : (!sc && !t.hasHiddenCursor) = true <;>
    simp [incRender, stdRender, hh, h1, h2, h3, hne, hne', he, Op.isWrite,
      statesCorrespond]

theorem incremental_empty_falls_back_to_standard_witness :
    (incRender false incInit "a".toList).2 =
        (stdRender false stdInit "a".toList).2 ∧
      (incRender false incInit "a".toList).2.filter Op.isWrite =
        [Op.write [Chunk.eraseLines 0, Chunk.text "a".toList]] :=
  ⟨(incremental_empty_falls_back_to_standard false stdInit incInit "a".toList
      ⟨rfl, rfl, rfl⟩ (by decide) (Or.inr rfl)).1,
   (incremental_empty_falls_back_to_standard false stdInit incInit "a".toList
      ⟨rfl, rfl, rfl⟩ (by decide) (Or.inr rfl)).2.1⟩

lemma stdRender_fst_previousLineCount (sc : Bool) (s : StdState) (str : Str) :
    (stdRender sc s str).1.previousLineCount =
      if str = s.previousOutput then s.previousLineCount
      else (jsSplitNewline str).length := by
  by_cases hh : (!sc && !s.hasHiddenCursor) = true <;>
    by_cases he : str = s.previousOutput <;>
      simp [stdRender, hh, he]

lemma incRender_fst_previousLines (sc : Bool) (t : IncState) (str : Str) :
    (incRender sc t str).1.previousLines =
      if str = t.previousOutput then t.previousLines
      else jsSplitNewline str := by
  by_cases hh : (!sc && !t.hasHiddenCursor) = true <;>
    by_cases he : str = t.previousOutput <;>
      by_cases hf : str = [] ∨ t.previousOutput = [] <;>
        simp [incRender, hh, he, hf]

/-- The states of `createStandard` reachable from construction through its
four operations, for a fixed `showCursor` option. -/
inductive StdReach (sc : Bool) : StdState → Prop where
  | init : StdReach sc stdInit
  | render (s : StdState) (str : Str) :
      StdReach sc s → StdReach sc (stdRender sc s str).1
  | clear (s : StdState) : StdReach sc s → StdReach sc (stdClear s).1
  | done (s : StdState) : StdReach sc s → StdReach sc (stdDone sc s).1
  | sync (s : StdState) (str : Str) : StdReach sc s → StdReach sc (stdSync s str)

/-- The states of `createIncremental` reachable from construction through its
four operations, for a fixed `showCursor` option. -/
inductive IncReach (sc : Bool) : IncState → Prop where
  | init : IncReach sc incInit
  | render (t : IncState) (str : Str) :
      IncReach sc t → IncReach sc (incRender sc t str).1
  | clear (t : IncState) : IncReach sc t → IncReach sc (incClear t).1
  | done (t : IncState) : IncReach sc t → IncReach sc (incDone sc t).1
  | sync (t : IncState) (str : Str) : IncReach sc t → IncReach sc (incSync t str)

/-- C8: in every reachable renderer state whose tracked previous output is
non-empty, the cached line count (standard mode) is the number of
newline-separated lines of that output and the cached line array (incremental
mode) is that output split on newlines — every operation preserves this
consistency — and the reset states (construction, after `clear`, after
`done`) hold the empty output with line count `0` / an empty line array. -/
theorem cached_lines_match_previous_output :
    (∀ sc s, StdReach sc s → s.previousOutput ≠ [] →
      s.previousLineCount = (jsSplitNewline s.previousOutput).length) ∧
    (∀ sc t, IncReach sc t → t.previousOutput ≠ [] →
      t.previousLines = jsSplitNewline t.previousOutput) ∧
    (stdInit.previousOutput = [] ∧ stdInit.previousLineCount = 0) ∧
    (incInit.previousOutput = [] ∧ incInit.previousLines = []) ∧
    (∀ s, (stdClear s).1.previousOutput = [] ∧
      (stdClear s).1.previousLineCount = 0) ∧
    (∀ sc s, (stdDone sc s).1.previousOutput = [] ∧
      (stdDone sc s).1.previousLineCount = 0) ∧
    (∀ t, (incClear t).1.previousOutput = [] ∧
      (incClear t).1.previousLines = []) ∧
    (∀ sc t, (incDone sc t).1.previousOutput = [] ∧
      (incDone sc t).1.previousLines = []) := by
  refine ⟨?_, ?_, ⟨rfl, rfl⟩, ⟨rfl, rfl⟩, fun s => ⟨rfl, rfl⟩,
    fun sc s => ?_, fun t => ⟨rfl, rfl⟩, fun sc t => ?_⟩
  · intro sc s hreach
    induction hreach with
    | init => intro h; exact absurd rfl h
    | render s str _ ih =>
      rw [stdRender_fst_previousOutput, stdRender_fst_previousLineCount]
      by_cases he : str = s.previousOutput
      · intro h
        rw [if_pos he, he]
        exact ih (he ▸ h)
      · intro _
        rw [if_neg he]
    | clear s _ => intro h; exact absurd rfl h
    | done s _ =>
      intro h
      exact absurd (show (stdDone sc s).1.previousOutput = [] from by
        cases sc <;> simp [stdDone]) h
    | sync s str _ => intro _; rfl
  · intro sc t hreach
    induction hreach with
    | init => intro h; exact absurd rfl h
    | render t str _ ih =>
      rw [incRender_fst_previousOutput, incRender_fst_previousLines]
      by_cases he : str = t.previousOutput
      · intro h
        rw [if_pos he, he]
        exact ih (he ▸ h)
      · intro _
        rw [if_neg he]
    | clear t _ => intro h; exact absurd rfl h
    | done t _ =>
      intro h
      exact absurd (show (incDone sc t).1.previousOutput = [] from by
        cases sc <;> simp [incDone]) h
    | sync t str _ => intro _; rfl
  · cases sc <;> simp [stdDone]
  · cases sc <;> simp [incDone]

theorem cached_lines_match_previous_output_witness :
    (stdSync stdInit "a\nb".toList).previousLineCount =
      (jsSplitNewline (stdSync stdInit "a\nb".toList).previousOutput).length ∧
    (incSync incInit "a\nb".toList).previousLines =
      jsSplitNewline (incSync incInit "a\nb".toList).previousOutput :=
  ⟨cached_lines_match_previous_output.1 false _
      (StdReach.sync stdInit "a\nb".toList StdReach.init) (by decide),
   cached_lines_match_previous_output.2.1 false _
      (IncReach.sync incInit "a\nb".toList IncReach.init) (by decide)⟩

/-- C3: in incremental mode, when both the previous output and the next
output are non-empty and differ, the single stream write consists of the
header movement followed by the per-line diff chunks, where an unchanged line
is neither erased nor rewritten (only a cursor-to-next-line move, and nothing
at all for the last line), a changed line is erased and its new content
written (followed by a movement), and a real newline chunk is emitted only
after a line that was rewritten. -/
theorem incremental_diff_skips_unchanged_lines (sc : Bool) (t : IncState)
    (str : Str) (hp : t.previousOutput ≠ []) (hn : str ≠ [])
    (hne : str ≠ t.previousOutput) :
    ((incRender sc t str).2.filter Op.isWrite =
      [Op.write (incHeader t.previousLines.length (jsSplitNewline str).length
        ++ incBody t.previousLines (jsSplitNewline str)
             (jsSplitNewline str).length)]) ∧
    (∀ i, i < (jsSplitNewline str).length →
      ((jsSplitNewline str)[i]? = t.previousLines[i]? →
        incLineChunks t.previousLines (jsSplitNewline str)
            (jsSplitNewline str).length i =
          if i < (jsSplitNewline str).length - 1 then [Chunk.cursorNextLine]
          else []) ∧
      ((jsSplitNewline str)[i]? ≠ t.previousLines[i]? →
        incLineChunks t.previousLines (jsSplitNewline str)
            (jsSplitNewline str).length i =
          [Chunk.eraseLine, Chunk.text (((jsSplitNewline str)[i]?).getD [])] ++
            if i < (jsSplitNewline str).length - 1 then [Chunk.newline]
            else [])) ∧
    (∀ i, Chunk.newline ∈ incLineChunks t.previousLines (jsSplitNewline str)
        (jsSplitNewline str).length i →
      (jsSplitNewline str)[i]? ≠ t.previousLines[i]?) := by
  refine ⟨?_, ?_, ?_⟩
  · have hf : ¬ (str = [] ∨ t.previousOutput = []) := not_or.mpr ⟨hn, hp⟩
    by_cases hh : (!sc && !t.hasHiddenCursor) = true <;>
      simp [incRender, hh, hne, hf, Op.isWrite]
  · intro i _
    constructor
    · intro hc
      simp [incLineChunks, hc]
    · intro hc
      simp [incLineChunks, hc]
  · intro i hmem heq
    simp [incLineChunks, heq] at hmem

theorem incremental_diff_skips_unchanged_lines_witness :
    ((incRender true ⟨["a".toList, "b".toList], "a\nb".toList, true⟩
        "a\nc".toList).2.filter Op.isWrite =
      [Op.write [Chunk.cursorUp 1, Chunk.cursorNextLine, Chunk.eraseLine,
        Chunk.text "c".toList]]) := by
  rw [(incremental_diff_skips_unchanged_lines true
    ⟨["a".toList, "b".toList], "a\nb".toList, true⟩ "a\nc".toList
    (by decide) (by decide) (by decide)).1]
  decide

lemma measureChildren_eq_foldl :
    ∀ (cs : List DomNode) (ox oy : Int) (acc : Int × Int),
      measureChildren cs ox oy acc =
        ((descendantEdges cs).foldl (fun a p => mathMax a (ox + p.1)) acc.1,
         (descendantEdges cs).foldl (fun a p => mathMax a (oy + p.2)) acc.2)
  | [], ox, oy, acc => by
    simp [measureChildren, descendantEdges]
  | DomNode.mk none cs :: rest, ox, oy, acc => by
    rw [measureChildren, measureChildren_eq_foldl rest]
    simp [descendantEdges]
  | DomNode.mk (some g) cs :: rest, ox, oy, acc => by
    rw [measureChildren, measureChildren_eq_foldl cs,
      measureChildren_eq_foldl rest]
    simp only [descendantEdges, List.foldl_cons, List.foldl_append,
      List.foldl_map]
    simp [add_assoc]

/-- C6: for a scroll container with computed geometry, `getMaxScroll` equals
`(max 0 (contentExtent.width - innerWidth), max 0 (contentExtent.height -
innerHeight))` where the inner size subtracts the border thickness on both
edges of the axis from the computed size, and the content extent is the
maximum (at least `0`) over the right/bottom edges of the visited
descendants, each accumulated relative to the container's origin
(`descendantEdges`). -/
theorem maxScroll_content_minus_inner (e : DomNode) (g : Geom)
    (h : e.yogaNode = some g) :
    getMaxScroll e =
      (mathMax 0 ((descendantEdges e.childNodes).foldl
          (fun a p => mathMax a p.1) 0 - (g.width - g.borderLeft - g.borderRight)),
       mathMax 0 ((descendantEdges e.childNodes).foldl
          (fun a p => mathMax a p.2) 0 - (g.height - g.borderTop - g.borderBottom))) := by
  simp [getMaxScroll, getContentDimensions, h, measureChildren_eq_foldl]

theorem maxScroll_content_minus_inner_witness :
    getMaxScroll (DomNode.mk (some ⟨0, 0, 5, 3, 1, 1, 0, 0⟩)
        [DomNode.mk (some ⟨2, 0, 4, 2, 0, 0, 0, 0⟩)
          [DomNode.mk (some ⟨3, 1, 4, 1, 0, 0, 0, 0⟩) []]]) = (6, 0) := by
  rw [maxScroll_content_minus_inner
    (DomNode.mk (some ⟨0, 0, 5, 3, 1, 1, 0, 0⟩)
      [DomNode.mk (some ⟨2, 0, 4, 2, 0, 0, 0, 0⟩)
        [DomNode.mk (some ⟨3, 1, 4, 1, 0, 0, 0, 0⟩) []]])
    ⟨0, 0, 5, 3, 1, 1, 0, 0⟩ rfl]
  simp [descendantEdges, mathMax, DomNode.childNodes]
